import Mathlib

/-!
Verification development for the 486tang host tools: the UART frame codec,
keyboard/mouse encoders and the PS/2 mouse device emulator of
`tools/486tang.py`, and the SD-card image composer of `tools/mksdcard.py`.
Python byte strings are modelled as `List Nat` (each element a byte value),
fallible functions return `Option`, and the streaming decoder is modelled as
a step function over its accumulating buffer.
-/

namespace Tang

/-- Command byte for keyboard scancode frames (`CMD_PS2_SCANCODE`). -/
def CMD_PS2_SCANCODE : Nat := 0x0C

/-- Command byte for mouse frames (`CMD_PS2_MOUSE`). -/
def CMD_PS2_MOUSE : Nat := 0x0E

/-- `frame(payload)`: raises when the payload exceeds 2047 bytes, otherwise
prepends the 0xAA marker and a big-endian 16-bit length. -/
def frame (payload : List Nat) : Option (List Nat) :=
  let length := payload.length
  if length > 0x07FF then none
  else some (0xAA :: ((length >>> 8) &&& 0xFF) :: (length &&& 0xFF) :: payload)

/-- `build_scancode_frame(scancodes)`: frames `[CMD_PS2_SCANCODE] + scancodes`. -/
def build_scancode_frame (scancodes : List Nat) : Option (List Nat) :=
  frame (CMD_PS2_SCANCODE :: scancodes)

/-- `build_mouse_frame(mouse_bytes)`: frames `[CMD_PS2_MOUSE] + mouse_bytes`. -/
def build_mouse_frame (mouseBytes : List Nat) : Option (List Nat) :=
  frame (CMD_PS2_MOUSE :: mouseBytes)

/-- The SEEK step of the frame reader in `run_interactive`: `rx_buf.find(0xAA)`
followed by `del rx_buf[:idx]`; `none` models the branch that clears the whole
buffer when no marker byte is present. -/
def seekMarker : List Nat → Option (List Nat)
  | [] => none
  | x :: rest => if x = 0xAA then some (x :: rest) else seekMarker rest

theorem seekMarker_length {buf buf2 : List Nat} (h : seekMarker buf = some buf2) :
    buf2.length ≤ buf.length := by
  induction buf with
  | nil => simp [seekMarker] at h
  | cons x rest ih =>
    by_cases hx : x = 0xAA
    · simp [seekMarker, hx] at h
      subst h
      simp [hx]
    · simp only [seekMarker, if_neg hx] at h
      exact Nat.le_trans (ih h) (Nat.le_succ _)

/-- The inner `while True` parsing loop of `run_interactive`, run until it
breaks back to the outer read loop.  Between reads the parser always rests in
the SEEK state, so the whole decoder state is the accumulated buffer.  Returns
the frames emitted (as `(type, body)` pairs, skipping empty payloads) together
with the remaining buffer. -/
def parseFrames (buf : List Nat) : List (Nat × List Nat) × List Nat :=
  match hm : seekMarker buf with
  | none => ([], [])
  | some buf2 =>
    if h4 : buf2.length < 4 then ([], buf2)
    else
      let len := ((buf2.getD 1 0) <<< 8) ||| buf2.getD 2 0
      if buf2.length < 3 + len then ([], buf2)
      else
        let payload := (buf2.drop 3).take len
        let rest := parseFrames (buf2.drop (3 + len))
        match payload with
        | [] => rest
        | t :: body => ((t, body) :: rest.1, rest.2)
termination_by buf.length
decreasing_by
  have hle := seekMarker_length hm
  simp only [List.length_drop]
  omega

/-- Feeding the serial bytes to the reader one `ser.read` chunk of a single
byte at a time: each byte is appended to the buffer and the parse loop runs. -/
def feedBytes : List Nat → List Nat → List (Nat × List Nat) × List Nat
  | [], buf => ([], buf)
  | b :: rest, buf =>
    let step := parseFrames (buf ++ [b])
    let tail := feedBytes rest step.2
    (step.1 ++ tail.1, tail.2)

/-- The wire bytes of a successfully encoded frame with payload `t :: b`. -/
def frameBytes (t : Nat) (b : List Nat) : List Nat :=
  0xAA :: (((b.length + 1) >>> 8) &&& 0xFF) :: ((b.length + 1) &&& 0xFF) :: t :: b

/-- `clamp8` from `ps2_mouse_packet`: `max(-128, min(127, v))`. -/
def clamp8 (v : Int) : Int := max (-128) (min 127 v)

/-- `ps2_mouse_packet(dx, dy, buttons)`: the 3-byte PS/2 mouse report.  The
final `& 0xFF` of the Python byte conversion is `% 256` on the clamped signed
value. -/
def ps2_mouse_packet (dx dy : Int) (buttons : Nat) : List Nat :=
  let dx2 := clamp8 dx
  let dy2 := clamp8 (-dy)
  let b0 : Nat := 0x08
  let b0 := if buttons &&& 0x1 ≠ 0 then b0 ||| 0x01 else b0
  let b0 := if buttons &&& 0x2 ≠ 0 then b0 ||| 0x02 else b0
  let b0 := if buttons &&& 0x4 ≠ 0 then b0 ||| 0x04 else b0
  let b0 := if dx2 < 0 then b0 ||| 0x10 else b0
  let b0 := if dy2 < 0 then b0 ||| 0x20 else b0
  let b0 := if dx < -128 ∨ 127 < dx then b0 ||| 0x40 else b0
  let b0 := if dy < -128 ∨ 127 < dy then b0 ||| 0x80 else b0
  [b0, (dx2 % 256).toNat, (dy2 % 256).toNat]

/-- The worker loop of `_derive_break_from_make`, with the accumulated output
made explicit: an 0xE0 byte is copied and 0xF0 is inserted before the byte
that follows it, any other byte `x` becomes `0xF0, x`, and an 0xE1 byte makes
the whole function return the empty sequence. -/
def deriveBreakGo : List Nat → List Nat → List Nat
  | acc, [] => acc
  | acc, x :: rest =>
    if x = 0xE0 then
      match rest with
      | [] => acc ++ [0xE0]
      | y :: rest2 => deriveBreakGo (acc ++ [0xE0, 0xF0, y]) rest2
    else if x = 0xE1 then []
    else deriveBreakGo (acc ++ [0xF0, x]) rest

/-- `_derive_break_from_make(make_bytes)`. -/
def derive_break (make : List Nat) : List Nat := deriveBreakGo [] make

/-- Interleaving 0xF0 before every byte, the break shape claimed for
non-extended make sequences. -/
def interleaveF0 : List Nat → List Nat
  | [] => []
  | x :: rest => 0xF0 :: x :: interleaveF0 rest

/-- The `KEYMAP` table: make sequence plus optional explicit break sequence. -/
def keymap : List (String × List Nat × Option (List Nat)) :=
  [ ("a", [0x1C], none), ("b", [0x32], none), ("c", [0x21], none),
    ("d", [0x23], none), ("e", [0x24], none), ("f", [0x2B], none),
    ("g", [0x34], none), ("h", [0x33], none), ("i", [0x43], none),
    ("j", [0x3B], none), ("k", [0x42], none), ("l", [0x4B], none),
    ("m", [0x3A], none), ("n", [0x31], none), ("o", [0x44], none),
    ("p", [0x4D], none), ("q", [0x15], none), ("r", [0x2D], none),
    ("s", [0x1B], none), ("t", [0x2C], none), ("u", [0x3C], none),
    ("v", [0x2A], none), ("w", [0x1D], none), ("x", [0x22], none),
    ("y", [0x35], none), ("z", [0x1A], none),
    ("1", [0x16], none), ("2", [0x1E], none), ("3", [0x26], none),
    ("4", [0x25], none), ("5", [0x2E], none), ("6", [0x36], none),
    ("7", [0x3D], none), ("8", [0x3E], none), ("9", [0x46], none),
    ("0", [0x45], none),
    ("backquote", [0x0E], none),
    ("minus", [0x4E], none), ("underscore", [0x4E], none),
    ("equals", [0x55], none), ("plus", [0x55], none),
    ("leftbracket", [0x54], none), ("rightbracket", [0x5B], none),
    ("backslash", [0x5D], none),
    ("semicolon", [0x4C], none), ("colon", [0x4C], none),
    ("quote", [0x52], none), ("doublequote", [0x52], none),
    ("comma", [0x41], none), ("less", [0x41], none),
    ("period", [0x49], none), ("greater", [0x49], none),
    ("slash", [0x4A], none), ("question", [0x4A], none),
    ("enter", [0x5A], none), ("esc", [0x76], none), ("backspace", [0x66], none),
    ("tab", [0x0D], none), ("space", [0x29], none),
    ("capslock", [0x58], none), ("numlock", [0x77], none),
    ("scrolllock", [0x7E], none),
    ("leftshift", [0x12], none), ("rightshift", [0x59], none),
    ("leftctrl", [0x14], none), ("rightctrl", [0xE0, 0x14], none),
    ("leftalt", [0x11], none), ("rightalt", [0xE0, 0x11], none),
    ("f1", [0x05], none), ("f2", [0x06], none), ("f3", [0x04], none),
    ("f4", [0x0C], none), ("f5", [0x03], none), ("f6", [0x0B], none),
    ("f7", [0x83], none), ("f8", [0x0A], none), ("f9", [0x01], none),
    ("f10", [0x09], none), ("f11", [0x78], none), ("f12", [0x07], none),
    ("printscreen", [0xE0, 0x12, 0xE0, 0x7C],
      some [0xE0, 0xF0, 0x7C, 0xE0, 0xF0, 0x12]),
    ("pause", [0xE1, 0x14, 0x77, 0xE1, 0xF0, 0x14, 0xE0, 0x77], some []),
    ("insert", [0xE0, 0x70], none), ("home", [0xE0, 0x6C], none),
    ("pageup", [0xE0, 0x7D], none),
    ("delete", [0xE0, 0x71], none), ("end", [0xE0, 0x69], none),
    ("pagedown", [0xE0, 0x7A], none),
    ("up", [0xE0, 0x75], none), ("down", [0xE0, 0x72], none),
    ("left", [0xE0, 0x6B], none), ("right", [0xE0, 0x74], none),
    ("kp_divide", [0xE0, 0x4A], none), ("kp_multiply", [0x7C], none),
    ("kp_minus", [0x7B], none),
    ("kp_7", [0x6C], none), ("kp_8", [0x75], none), ("kp_9", [0x7D], none),
    ("kp_plus", [0x79], none),
    ("kp_4", [0x6B], none), ("kp_5", [0x73], none), ("kp_6", [0x74], none),
    ("kp_1", [0x69], none), ("kp_2", [0x72], none), ("kp_3", [0x7A], none),
    ("kp_0", [0x70], none), ("kp_period", [0x71], none),
    ("kp_enter", [0xE0, 0x5A], none), ("kp_equals", [0xE0, 0x5A], none) ]

/-- ASCII lower-casing of one character, the effect of `str.lower()` on the
key names used here. -/
def asciiLowerChar (c : Char) : Char :=
  if 65 ≤ c.toNat ∧ c.toNat ≤ 90 then Char.ofNat (c.toNat + 32) else c

/-- `name.lower()` for ASCII names. -/
def asciiLower (s : String) : String := String.mk (s.data.map asciiLowerChar)

/-- Dictionary lookup in `KEYMAP`. -/
def keymapLookup (s : String) : Option (List Nat × Option (List Nat)) :=
  keymap.lookup s

/-- The bytes one key name contributes in `expand_keys_to_scancodes` when it
is present in the table. -/
def keyChunk (pressed : Bool) (name : String) : List Nat :=
  match keymapLookup (asciiLower name) with
  | none => []
  | some (make, some brk) => if pressed then make else brk
  | some (make, none) => if pressed then make else derive_break make

/-- `expand_keys_to_scancodes(names, pressed)`: `none` models the `KeyError`
raised on the first unknown name, which aborts the whole batch. -/
def expand_keys_to_scancodes (names : List String) (pressed : Bool) :
    Option (List Nat) :=
  match names with
  | [] => some []
  | n :: rest =>
    match keymapLookup (asciiLower n) with
    | none => none
    | some (make, brkOpt) =>
      let chunk :=
        if pressed then make
        else
          match brkOpt with
          | some brk => brk
          | none => derive_break make
      match expand_keys_to_scancodes rest pressed with
      | none => none
      | some tail => some (chunk ++ tail)

/-- Which one-byte argument the mouse emulator is waiting for
(`expect_value_for`). -/
inductive MouseAwait
  | f3
  | e8
deriving DecidableEq

/-- The mutable state of the PS/2 mouse device emulation inside
`run_interactive`. -/
structure MouseState where
  ps2_id : Nat
  rate_seq : List Nat
  expect : Option MouseAwait
  streaming : Bool
deriving DecidableEq

/-- The state at session start (and after `Reset`). -/
def initMouse : MouseState :=
  { ps2_id := 0x00, rate_seq := [], expect := none, streaming := false }

/-- `on_host_to_mouse_byte(b)`: one controller-to-mouse byte; returns the new
state together with the reply bytes sent back (each individually framed). -/
def mouseStep (s : MouseState) (b : Nat) : MouseState × List Nat :=
  match s.expect with
  | some MouseAwait.f3 =>
    let seq1 := s.rate_seq ++ [b &&& 0xFF]
    let seq2 := if seq1.length > 3 then seq1.drop (seq1.length - 3) else seq1
    let id2 := if seq2 = [200, 100, 80] then 0x03 else s.ps2_id
    ({ s with rate_seq := seq2, ps2_id := id2, expect := none }, [0xFA])
  | some MouseAwait.e8 => ({ s with expect := none }, [0xFA])
  | none =>
    let cmd := b &&& 0xFF
    if cmd = 0xFF then
      ({ ps2_id := 0x00, rate_seq := [], expect := none, streaming := false },
        [0xFA, 0xAA, 0x00])
    else if cmd = 0xF2 then (s, [0xFA, s.ps2_id])
    else if cmd = 0xF3 then ({ s with expect := some MouseAwait.f3 }, [0xFA])
    else if cmd = 0xE8 then ({ s with expect := some MouseAwait.e8 }, [0xFA])
    else if cmd = 0xE6 ∨ cmd = 0xE7 ∨ cmd = 0xF0 ∨ cmd = 0xF5 ∨ cmd = 0xF6 ∨
        cmd = 0xEA then
      (if cmd = 0xF5 then { s with streaming := false }
       else if cmd = 0xEA ∨ cmd = 0xF4 then { s with streaming := true }
       else s, [0xFA])
    else if cmd = 0xF4 then ({ s with streaming := true }, [0xFA])
    else if cmd = 0xE9 then (s, [0xFA, 0x00, 0x00, 0x00])
    else (s, [0xFE])

/-- Running a byte sequence through `on_host_to_mouse_byte` in order,
collecting all replies. -/
def runMouse (s : MouseState) : List Nat → MouseState × List Nat
  | [] => (s, [])
  | b :: rest =>
    let step := mouseStep s b
    let tail := runMouse step.1 rest
    (tail.1, step.2 ++ tail.2)

/-- The byte stream `0xF3 v1 0xF3 v2 ...` setting the sample rates `vs`. -/
def sampleRatePairs : List Nat → List Nat
  | [] => []
  | v :: rest => 0xF3 :: v :: sampleRatePairs rest

/-- The rolling last-3 history update applied to one new sample-rate byte. -/
def rollRate (seq : List Nat) (v : Nat) : List Nat :=
  let seq1 := seq ++ [v &&& 0xFF]
  if seq1.length > 3 then seq1.drop (seq1.length - 3) else seq1

/-- Whether the rolling history hits exactly `[200, 100, 80]` at some point
while consuming the sample-rate values `vs` starting from history `seq`. -/
def rateHit (seq : List Nat) : List Nat → Bool
  | [] => false
  | v :: rest =>
    let seq2 := rollRate seq v
    (seq2 = [200, 100, 80] : Bool) || rateHit seq2 rest

/-- Folding the rolling history over a sample-rate value list. -/
def rollRates (seq : List Nat) : List Nat → List Nat
  | [] => seq
  | v :: rest => rollRates (rollRate seq v) rest

/-- `SECTOR_SIZE` of mksdcard. -/
def SECTOR_SIZE : Nat := 512

/-- `VGA_BIOS_OFFSET = 64 * 1024`. -/
def VGA_BIOS_OFFSET : Nat := 64 * 1024

/-- `CFG_SECTOR = 192`. -/
def CFG_SECTOR : Nat := 192

/-- `CFG_OFFSET = CFG_SECTOR * SECTOR_SIZE`. -/
def CFG_OFFSET : Nat := CFG_SECTOR * SECTOR_SIZE

/-- `HDD_OFFSET = 128 * 1024`. -/
def HDD_OFFSET : Nat := 128 * 1024

/-- `decode_chs(head, sec_cyl, cyl_lo)` returning `(valid, cyl, head, sec)`. -/
def decode_chs (head secCyl cylLo : Nat) : Bool × Nat × Nat × Nat :=
  if head = 0xFF ∧ secCyl = 0xFF ∧ cylLo = 0xFF then (false, 0, 0, 0)
  else
    let sec := secCyl &&& 0x3F
    let cyl := ((secCyl &&& 0xC0) <<< 2) ||| cylLo
    if sec = 0 then (false, 0, 0, 0) else (true, cyl, head, sec)

/-- `chs_to_lba(cyl, head, sec, heads, spt)`. -/
def chs_to_lba (cyl head sec heads spt : Nat) : Nat :=
  ((cyl * heads) + head) * spt + (sec - 1)

/-- The fixed candidate list of `(heads, sectors-per-track)` pairs. -/
def geomCandidates : List (Nat × Nat) :=
  [(255, 63), (240, 63), (224, 56), (128, 63), (64, 63), (32, 63), (16, 63),
   (15, 63), (15, 32), (8, 32), (4, 32)]

/-- The 16-byte partition-table entry `i` of an MBR sector
(`mbr_data[0x1BE + i*16 : 0x1BE + (i+1)*16]`). -/
def mbrEntry (mbr : List Nat) (i : Nat) : List Nat :=
  (mbr.drop (0x1BE + i * 16)).take 16

/-- The little-endian 32-bit field at offset `o` of a 16-byte entry, as
`struct.unpack` reads `lbaStart` and `lbaSectors`. -/
def entryU32 (e : List Nat) (o : Nat) : Nat :=
  e.getD o 0 + e.getD (o + 1) 0 * 256 + e.getD (o + 2) 0 * 65536 +
    e.getD (o + 3) 0 * 16777216

/-- The per-entry geometry check of `calc_geometry_from_mbr`: entries with
partition type 0 are skipped, decodable CHS start/end fields must convert to
the stored LBA bounds.  The end bound `lbaStart + lbaSectors - 1` is signed
integer arithmetic as in the source, so for `lbaStart = lbaSectors = 0` it is
-1 and can never equal a computed LBA. -/
def entryOk (heads spt : Nat) (e : List Nat) : Bool :=
  let ptype := e.getD 4 0
  if ptype = 0 then true
  else
    let beg := decode_chs (e.getD 1 0) (e.getD 2 0) (e.getD 3 0)
    let lbaStart := entryU32 e 8
    let lbaSectors := entryU32 e 12
    let okBeg := !beg.1 || (chs_to_lba beg.2.1 beg.2.2.1 beg.2.2.2 heads spt == lbaStart)
    let en := decode_chs (e.getD 5 0) (e.getD 6 0) (e.getD 7 0)
    let okEnd := !en.1 ||
      ((chs_to_lba en.2.1 en.2.2.1 en.2.2.2 heads spt : Int) ==
        (lbaStart : Int) + (lbaSectors : Int) - 1)
    okBeg && okEnd

/-- A candidate is kept when every partition entry agrees with it. -/
def checkCandidate (mbr : List Nat) (c : Nat × Nat) : Bool :=
  ((List.range 4).map (mbrEntry mbr)).all (entryOk c.1 c.2)

/-- Descending comparison on the sort key `(spt, heads)` used by
the sort by key (x[1], x[0]) with reverse=True. -/
def geomGe (a c : Nat × Nat) : Bool :=
  decide (c.2 < a.2 ∨ (c.2 = a.2 ∧ c.1 ≤ a.1))

/-- Insertion step of the descending sort over candidates. -/
def insertGeom (c : Nat × Nat) : List (Nat × Nat) → List (Nat × Nat)
  | [] => [c]
  | d :: rest => if geomGe c d then c :: d :: rest else d :: insertGeom c rest

/-- Sorting accepted candidates descending by `(spt, heads)`. -/
def sortGeomDesc : List (Nat × Nat) → List (Nat × Nat)
  | [] => []
  | c :: rest => insertGeom c (sortGeomDesc rest)

/-- `calc_geometry_from_mbr(mbr_data, total_bytes)` returning
`(cylinders, heads, spt)`. -/
def calc_geometry_from_mbr (mbr : List Nat) (total_bytes : Nat) :
    Nat × Nat × Nat :=
  let accepted := geomCandidates.filter (checkCandidate mbr)
  let hs := (sortGeomDesc accepted).headD (255, 63)
  (total_bytes / SECTOR_SIZE / hs.1 / hs.2, hs.1, hs.2)

/-- The 40-character model string "AO Harddrive" left-justified with
spaces, as character codes. -/
def identModelChars : List Nat :=
  [65, 79, 32, 72, 97, 114, 100, 100, 114, 105, 118, 101] ++
    List.replicate 28 32

/-- `build_identify_words(cyl, heads, spt)`: the 256-word ATA IDENTIFY
block. -/
def build_identify_words (cyl heads spt : Nat) : List Nat :=
  let total := cyl * heads * spt
  let a0 := (List.replicate 256 0).set 0 0x0040
  let a1 := a0.set 1 (min 16383 cyl)
  let a3 := a1.set 3 heads
  let a4 := a3.set 4 ((512 * spt) &&& 0xFFFF)
  let a5 := a4.set 5 512
  let a6 := a5.set 6 spt
  let s10 := a6.set 10 ((65 <<< 8) ||| 79)
  let s11 := s10.set 11 ((72 <<< 8) ||| 68)
  let s12 := s11.set 12 ((48 <<< 8) ||| 48)
  let s13 := s12.set 13 ((48 <<< 8) ||| 48)
  let s14 := s13.set 14 ((48 <<< 8) ||| 32)
  let s15 := s14.set 15 ((32 <<< 8) ||| 32)
  let s16 := s15.set 16 ((32 <<< 8) ||| 32)
  let s17 := s16.set 17 ((32 <<< 8) ||| 32)
  let s18 := s17.set 18 ((32 <<< 8) ||| 32)
  let s19 := s18.set 19 ((32 <<< 8) ||| 32)
  let a20 := s19.set 20 3
  let a21 := a20.set 21 512
  let a22 := a21.set 22 4
  let am := (List.range 20).foldl
    (fun acc i =>
      acc.set (27 + i)
        (((identModelChars.getD (2 * i) 0) <<< 8) ||| identModelChars.getD (2 * i + 1) 0))
    a22
  let a47 := am.set 47 16
  let a48 := a47.set 48 1
  let a49 := a48.set 49 (1 <<< 9)
  let a50 := a49.set 50 0
  let a51 := a50.set 51 0x0200
  let a52 := a51.set 52 0x0200
  let a53 := a52.set 53 0x0007
  let a54 := a53.set 54 (min 16383 cyl)
  let a55 := a54.set 55 heads
  let a56 := a55.set 56 spt
  let a57 := a56.set 57 (total &&& 0xFFFF)
  let a58 := a57.set 58 ((total >>> 16) &&& 0xFFFF)
  let a59 := a58.set 59 0
  let a60 := a59.set 60 (total &&& 0xFFFF)
  let a61 := a60.set 61 ((total >>> 16) &&& 0xFFFF)
  let a62 := a61.set 62 0
  let a63 := a62.set 63 0
  let a64 := a63.set 64 0
  let a65 := a64.set 65 120
  let a66 := a65.set 66 120
  let a67 := a66.set 67 120
  let a68 := a67.set 68 120
  let a80 := a68.set 80 0x007E
  let a81 := a80.set 81 0
  let a82 := a81.set 82 (1 <<< 14)
  let a83 := a82.set 83 ((1 <<< 14) ||| (1 <<< 13) ||| (1 <<< 12) ||| (1 <<< 10))
  let a84 := a83.set 84 (1 <<< 14)
  let a85 := a84.set 85 (1 <<< 14)
  let a86 := a85.set 86 ((1 <<< 14) ||| (1 <<< 13) ||| (1 <<< 12) ||| (1 <<< 10))
  let a87 := a86.set 87 (1 <<< 14)
  let a88 := a87.set 88 0
  let a93 := a88.set 93 (1 ||| (1 <<< 14) ||| 0x2000)
  let a100 := a93.set 100 (total &&& 0xFFFF)
  a100.set 101 ((total >>> 16) &&& 0xFFFF)

/-- The ordered `(address, value)` pair list of `build_config_stream`, before
serialization. -/
def configPairs (mem_kb : Nat) (hdd : List Nat) : List (Nat × Nat) :=
  let equip := 1 ||| (1 <<< 2) ||| (2 <<< 4)
  let g := calc_geometry_from_mbr (hdd.take SECTOR_SIZE) hdd.length
  let ident := build_identify_words g.1 g.2.1 g.2.2
  [ (0xF400 + 0x30, mem_kb &&& 0xFF), (0xF400 + 0x31, (mem_kb >>> 8) &&& 0xFF),
    (0xF400 + 0x14, equip), (0xF400 + 0x10, 0x20), (0xF400 + 0x0D, 0x80),
    (0xF400 + 0x09, 0x24), (0xF400 + 0x08, 0x01), (0xF400 + 0x07, 0x01),
    (0xF400 + 0x32, 0x20) ]
  ++ [ (0xF001, g.1), (0xF002, g.2.1), (0xF003, g.2.2),
       (0xF004, g.2.2 * g.2.1), (0xF005, g.2.2 * g.2.1 * g.1) ]
  ++ (List.range 128).map (fun i =>
       (0xF000, ((ident.getD (2 * i + 1) 0 &&& 0xFFFF) <<< 16) |||
         (ident.getD (2 * i) 0 &&& 0xFFFF)))

/-- `struct.pack(I, n & 0xFFFFFFFF)` little-endian. -/
def le4 (n : Nat) : List Nat :=
  [n % 256, n / 256 % 256, n / 65536 % 256, n / 16777216 % 256]

/-- The serialization loop over the pair list. -/
def serializePairs (pairs : List (Nat × Nat)) : List Nat :=
  pairs.foldl
    (fun acc p => acc ++ le4 (p.1 &&& 0xFFFFFFFF) ++ le4 (p.2 &&& 0xFFFFFFFF)) []

/-- `build_config_stream(mem_kb, hdd_path)`: pair stream, 32-bit zero
terminator, zero padding to a sector boundary.  The MBR is the first sector of
the disk image and `total_bytes` its size. -/
def build_config_stream (mem_kb : Nat) (hdd : List Nat) : List Nat :=
  let data := serializePairs (configPairs mem_kb hdd) ++ le4 0
  if data.length % SECTOR_SIZE ≠ 0 then
    data ++ List.replicate (SECTOR_SIZE - data.length % SECTOR_SIZE) 0
  else data

/-- `create_sdcard_image(bios, vga, hdd, output, mem_mb)` modelled on byte
lists: `none` is the oversize-input failure path, `some` the composed image
written sequentially with padding up to each fixed offset. -/
def create_sdcard_image (bios vga hdd : List Nat) (mem_mb : Nat) :
    Option (List Nat) :=
  let mem_kb := (mem_mb - 1) * 1024
  if bios.length > VGA_BIOS_OFFSET then none
  else if VGA_BIOS_OFFSET + vga.length > HDD_OFFSET then none
  else
    let p1 := bios
    let p1 := if p1.length < VGA_BIOS_OFFSET then
        p1 ++ List.replicate (VGA_BIOS_OFFSET - p1.length) 0 else p1
    let p2 := p1 ++ vga
    let p2 := if p2.length < CFG_OFFSET then
        p2 ++ List.replicate (CFG_OFFSET - p2.length) 0 else p2
    let p3 := p2 ++ build_config_stream mem_kb hdd
    let p3 := if p3.length < HDD_OFFSET then
        p3 ++ List.replicate (HDD_OFFSET - p3.length) 0 else p3
    some (p3 ++ hdd)

/-- The synthetic MBR of the geometry test: one type-0x06 partition starting
at LBA 63 with CHS start (cylinder 0, head 1, sector 1), 1,000,000 sectors,
non-decodable end CHS. -/
def exampleMBR : List Nat :=
  List.replicate 446 0 ++
    [0x80, 1, 1, 0, 0x06, 0xFF, 0xFF, 0xFF, 63, 0, 0, 0, 0x40, 0x42, 0x0F, 0] ++
    List.replicate 50 0

theorem shl8_lor_eq_add (a b : Nat) (hb : b < 256) : (a <<< 8) ||| b = 2 ^ 8 * a + b := by
  apply Nat.eq_of_testBit_eq
  intro j
  rw [Nat.testBit_lor, Nat.testBit_shiftLeft,
    Nat.testBit_mul_pow_two_add a (by simpa using hb : b < 2 ^ 8) j]
  by_cases hj : j < 8
  · have hj8 : ¬ (j ≥ 8) := by omega
    simp [hj, hj8]
  · have h8j : (2 : Nat) ^ 8 ≤ 2 ^ j := Nat.pow_le_pow_right (by norm_num) (by omega)
    have hblt : b < 2 ^ j := lt_of_lt_of_le (by simpa using hb) h8j
    have hbj : b.testBit j = false := Nat.testBit_lt_two_pow hblt
    simp [hj, hbj, ge_iff_le, (by omega : 8 ≤ j)]

theorem and_255_eq_mod (x : Nat) : x &&& 0xFF = x % 256 := by
  have h := Nat.and_pow_two_sub_one_eq_mod x 8
  norm_num at h
  exact h

theorem shr8_eq_div (x : Nat) : x >>> 8 = x / 256 := by
  have h := Nat.shiftRight_eq_div_pow x 8
  norm_num at h
  exact h

theorem lor_reassemble (L : Nat) (h : L < 2048) :
    (((L >>> 8) &&& 0xFF) <<< 8) ||| (L &&& 0xFF) = L := by
  rw [and_255_eq_mod, and_255_eq_mod, shr8_eq_div]
  have hdiv : L / 256 % 256 = L / 256 := Nat.mod_eq_of_lt (by omega)
  rw [hdiv, shl8_lor_eq_add _ _ (Nat.mod_lt _ (by norm_num))]
  have := Nat.div_add_mod L 256
  norm_num
  omega

theorem lenbytes_sum (L : Nat) (h : L < 2048) :
    ((L >>> 8) &&& 0xFF) * 256 + (L &&& 0xFF) = L := by
  rw [and_255_eq_mod, and_255_eq_mod, shr8_eq_div]
  have hdiv : L / 256 % 256 = L / 256 := Nat.mod_eq_of_lt (by omega)
  rw [hdiv]
  have := Nat.div_add_mod L 256
  omega

theorem frame_cons_eq (t : Nat) (b : List Nat) (h : b.length + 1 ≤ 2047) :
    frame (t :: b) = some (frameBytes t b) := by
  simp only [frame, frameBytes, List.length_cons]
  rw [if_neg (by omega)]

theorem parseFrames_nil : parseFrames [] = ([], []) := by
  rw [parseFrames]
  rfl

theorem parseFrames_cons_marker (rest : List Nat) :
    parseFrames (0xAA :: rest) =
      (if (0xAA :: rest).length < 4 then ([], 0xAA :: rest)
       else if (0xAA :: rest).length < 3 + ((rest.getD 0 0) <<< 8 ||| rest.getD 1 0) then
         ([], 0xAA :: rest)
       else
         match ((0xAA :: rest).drop 3).take ((rest.getD 0 0) <<< 8 ||| rest.getD 1 0) with
         | [] =>
             parseFrames ((0xAA :: rest).drop (3 + ((rest.getD 0 0) <<< 8 ||| rest.getD 1 0)))
         | t :: body =>
             ((t, body) ::
                (parseFrames
                  ((0xAA :: rest).drop (3 + ((rest.getD 0 0) <<< 8 ||| rest.getD 1 0)))).1,
              (parseFrames
                  ((0xAA :: rest).drop (3 + ((rest.getD 0 0) <<< 8 ||| rest.getD 1 0)))).2)) := by
  rw [parseFrames]
  have hseek : seekMarker (0xAA :: rest) = some (0xAA :: rest) := by simp [seekMarker]
  split
  next heq =>
    rw [hseek] at heq
    exact absurd heq (by simp)
  next buf2 heq =>
    rw [hseek] at heq
    injection heq with heq2
    subst heq2
    rfl

theorem parseFrames_short (buf : List Nat) (h0 : buf.head? = some 0xAA)
    (h4 : buf.length < 4) : parseFrames buf = ([], buf) := by
  cases buf with
  | nil => simp at h0
  | cons x rest =>
    simp only [List.head?_cons, Option.some.injEq] at h0
    subst h0
    rw [parseFrames_cons_marker, if_pos h4]

theorem parseFrames_wait (b1 b2 : Nat) (rest : List Nat)
    (hwait : rest.length < (b1 <<< 8) ||| b2) (hlong : 1 ≤ rest.length) :
    parseFrames (0xAA :: b1 :: b2 :: rest) = ([], 0xAA :: b1 :: b2 :: rest) := by
  rw [parseFrames_cons_marker]
  simp only [List.getD_cons_succ, List.getD_cons_zero]
  rw [if_neg (by simp only [List.length_cons]; omega)]
  rw [if_pos (by simp only [List.length_cons]; omega)]

theorem parseFrames_step (b1 b2 t : Nat) (body extra : List Nat)
    (hlen : body.length + 1 = (b1 <<< 8) ||| b2) :
    parseFrames (0xAA :: b1 :: b2 :: t :: (body ++ extra)) =
      ((t, body) :: (parseFrames extra).1, (parseFrames extra).2) := by
  rw [parseFrames_cons_marker]
  simp only [List.getD_cons_succ, List.getD_cons_zero]
  rw [if_neg (by simp only [List.length_cons]; omega)]
  rw [if_neg (by simp only [List.length_cons, List.length_append]; omega)]
  have hdrop3 : (0xAA :: b1 :: b2 :: t :: (body ++ extra)).drop 3 = t :: (body ++ extra) := rfl
  have htake : (t :: (body ++ extra)).take ((b1 <<< 8) ||| b2) = t :: body := by
    rw [← hlen]
    simp [List.take_left]
  have hdrop : (0xAA :: b1 :: b2 :: t :: (body ++ extra)).drop (3 + ((b1 <<< 8) ||| b2)) =
      extra := by
    rw [← hlen]
    have h34 : 3 + (body.length + 1) = body.length + 4 := by omega
    rw [h34]
    show (body ++ extra).drop body.length = extra
    exact List.drop_left body extra
  rw [hdrop3, htake, hdrop]

theorem parseFrames_zstep (extra : List Nat) (hne : extra ≠ []) :
    parseFrames (0xAA :: 0 :: 0 :: extra) = parseFrames extra := by
  rw [parseFrames_cons_marker]
  simp only [List.getD_cons_succ, List.getD_cons_zero]
  have h0 : (0 : Nat) <<< 8 ||| 0 = 0 := rfl
  simp only [h0]
  rw [if_neg (by
    simp only [List.length_cons]
    have hlen : 1 ≤ extra.length := Nat.one_le_iff_ne_zero.mpr (by simpa using hne)
    omega)]
  rw [if_neg (by simp only [List.length_cons]; omega)]
  simp

theorem feedBytes_cons (x : Nat) (rest buf : List Nat) :
    feedBytes (x :: rest) buf =
      ((parseFrames (buf ++ [x])).1 ++ (feedBytes rest (parseFrames (buf ++ [x])).2).1,
        (feedBytes rest (parseFrames (buf ++ [x])).2).2) := rfl

theorem feedBytes_append (xs ys buf : List Nat) :
    feedBytes (xs ++ ys) buf =
      ((feedBytes xs buf).1 ++ (feedBytes ys (feedBytes xs buf).2).1,
        (feedBytes ys (feedBytes xs buf).2).2) := by
  induction xs generalizing buf with
  | nil => simp [feedBytes]
  | cons x rest ih => simp [feedBytes, ih]

theorem frameBytes_length (t : Nat) (b : List Nat) :
    (frameBytes t b).length = b.length + 4 := by
  simp [frameBytes]

theorem parseFrames_take (t : Nat) (b : List Nat) (hb : b.length + 1 ≤ 2047) (k : Nat)
    (hk : k < (frameBytes t b).length) :
    parseFrames ((frameBytes t b).take k) = ([], (frameBytes t b).take k) := by
  rw [frameBytes_length] at hk
  match k with
  | 0 => simp [parseFrames_nil]
  | 1 => exact parseFrames_short _ (by simp [frameBytes]) (by simp [frameBytes])
  | 2 => exact parseFrames_short _ (by simp [frameBytes]) (by simp [frameBytes])
  | 3 => exact parseFrames_short _ (by simp [frameBytes]) (by simp [frameBytes])
  | (m + 4) =>
    have hm : m < b.length := by omega
    have htake : (frameBytes t b).take (m + 4) =
        0xAA :: (((b.length + 1) >>> 8) &&& 0xFF) :: ((b.length + 1) &&& 0xFF) :: t ::
          b.take m := by
      simp [frameBytes]
    rw [htake]
    apply parseFrames_wait
    · rw [lor_reassemble (b.length + 1) (by omega)]
      simp only [List.length_cons, List.length_take]
      omega
    · simp

theorem parseFrames_full (t : Nat) (b : List Nat) (hb : b.length + 1 ≤ 2047) :
    parseFrames (frameBytes t b) = ([(t, b)], []) := by
  have hstep := parseFrames_step (((b.length + 1) >>> 8) &&& 0xFF)
      ((b.length + 1) &&& 0xFF) t b []
      (by rw [lor_reassemble (b.length + 1) (by omega)])
  rw [List.append_nil] at hstep
  show parseFrames (0xAA :: (((b.length + 1) >>> 8) &&& 0xFF) ::
      ((b.length + 1) &&& 0xFF) :: t :: b) = _
  rw [hstep, parseFrames_nil]

theorem feedBytes_drop (t : Nat) (b : List Nat) (hb : b.length + 1 ≤ 2047) :
    ∀ n j, (frameBytes t b).length - j = n → j < (frameBytes t b).length →
      feedBytes ((frameBytes t b).drop j) ((frameBytes t b).take j) = ([(t, b)], []) := by
  intro n
  induction n with
  | zero => intro j hn hj; omega
  | succ m ih =>
    intro j hn hj
    rw [List.drop_eq_get_cons hj]
    show ((parseFrames ((frameBytes t b).take j ++ [(frameBytes t b).get ⟨j, hj⟩])).1 ++ _,
      _) = _
    have htakesucc : (frameBytes t b).take j ++ [(frameBytes t b).get ⟨j, hj⟩] =
        (frameBytes t b).take (j + 1) := by
      have h := List.take_concat_get (frameBytes t b) j hj
      simpa [List.concat_eq_append] using h
    rw [htakesucc]
    by_cases hend : j + 1 < (frameBytes t b).length
    · rw [parseFrames_take t b hb (j + 1) hend]
      have htail := ih (j + 1) (by omega) hend
      simp only [feedBytes] at htail ⊢
      rw [htail]
      simp
    · have hj1 : j + 1 = (frameBytes t b).length := by omega
      rw [hj1, List.take_length, parseFrames_full t b hb]
      have hdrop : (frameBytes t b).drop (frameBytes t b).length = [] :=
        List.drop_length _
      rw [hdrop]
      simp [feedBytes]

/-- The C1 round-trip packaged over the framed bytes:  feeding the whole frame
byte-by-byte from an empty SEEK buffer emits exactly `(t, b)` and empties the
buffer; every proper byte-at-a-time left-over emits nothing and keeps the bytes
buffered; a preceding fully received zero-length frame is silently dropped. -/
theorem feedBytes_frame (t : Nat) (b : List Nat) (hb : b.length + 1 ≤ 2047) :
    feedBytes (frameBytes t b) [] = ([(t, b)], [])
    ∧ (∀ k, k < (frameBytes t b).length →
        feedBytes ((frameBytes t b).take k) [] = ([], (frameBytes t b).take k))
    ∧ feedBytes ([0xAA, 0, 0] ++ frameBytes t b) [] = ([(t, b)], []) := by
  have hlen4 : 0 < (frameBytes t b).length := by rw [frameBytes_length]; omega
  have hfull : feedBytes (frameBytes t b) [] = ([(t, b)], []) := by
    have h := feedBytes_drop t b hb (frameBytes t b).length 0 (by omega) hlen4
    simpa using h
  refine ⟨hfull, ?_, ?_⟩
  · intro k hk
    induction k with
    | zero => simp [feedBytes]
    | succ m ihm =>
      have hm : m < (frameBytes t b).length := by omega
      have hmlt : m < (frameBytes t b).length := hm
      have htakesucc : (frameBytes t b).take m ++ [(frameBytes t b).get ⟨m, hm⟩] =
          (frameBytes t b).take (m + 1) := by
        have h := List.take_concat_get (frameBytes t b) m hm
        simpa [List.concat_eq_append] using h
      have hsplit : (frameBytes t b).take (m + 1) =
          (frameBytes t b).take m ++ [(frameBytes t b).get ⟨m, hm⟩] := htakesucc.symm
      rw [hsplit, feedBytes_append]
      rw [ihm hm]
      simp only [feedBytes]
      rw [htakesucc, parseFrames_take t b hb (m + 1) hk]
      simp
  · rw [feedBytes_append]
    have hpre : feedBytes [0xAA, 0, 0] [] = ([], [0xAA, 0, 0]) := by
      have p1 : parseFrames [0xAA] = ([], [0xAA]) :=
        parseFrames_short _ (by simp) (by simp)
      have p2 : parseFrames [0xAA, 0] = ([], [0xAA, 0]) :=
        parseFrames_short _ (by simp) (by simp)
      have p3 : parseFrames [0xAA, 0, 0] = ([], [0xAA, 0, 0]) :=
        parseFrames_short _ (by simp) (by simp)
      simp [feedBytes, p1, p2, p3]
    rw [hpre]
    suffices hsuff : feedBytes (frameBytes t b) [0xAA, 0, 0] = ([(t, b)], []) by
      rw [hsuff]
      simp
    have hz : parseFrames [0xAA, 0, 0, 0xAA] = ([], [0xAA]) := by
      have h := parseFrames_zstep [0xAA] (by simp)
      rw [parseFrames_short [0xAA] (by simp) (by simp)] at h
      exact h
    have hfb : frameBytes t b = 0xAA :: (((b.length + 1) >>> 8) &&& 0xFF) ::
        ((b.length + 1) &&& 0xFF) :: t :: b := rfl
    rw [hfb, feedBytes_cons]
    have happ : ([0xAA, 0, 0] : List Nat) ++ [0xAA] = [0xAA, 0, 0, 0xAA] := rfl
    rw [happ, hz]
    have h := feedBytes_drop t b hb ((frameBytes t b).length - 1) 1 rfl
      (by rw [frameBytes_length]; omega)
    have hd1 : (frameBytes t b).drop 1 =
        (((b.length + 1) >>> 8) &&& 0xFF) :: ((b.length + 1) &&& 0xFF) :: t :: b := rfl
    have ht1 : (frameBytes t b).take 1 = [0xAA] := rfl
    rw [hd1, ht1] at h
    rw [h]
    simp

/-- C1: frame round-trip under byte-at-a-time delivery.  For every type byte
`t` and body `b` with `(t :: b).length ≤ 2047`, the encoded frame exists and
feeding its bytes one at a time into the streaming decoder, starting in the
SEEK state with an empty buffer, emits exactly the pair `(t, b)` and leaves
the decoder back in SEEK with an empty buffer; every proper byte-at-a-time
incomplete delivery emits nothing (and raises nothing, the decoder is total);
keeps the received bytes buffered, and a fully received zero-length frame
before it emits nothing and is discarded.  `b` is arbitrary, so payloads
containing the 0xAA marker byte are decoded by counting the declared length,
not by re-scanning. -/
theorem frame_stream_roundtrip (t : Nat) (b : List Nat) (ht : t < 256)
    (hb : ∀ x ∈ b, x < 256) (hlen : b.length + 1 ≤ 2047) :
    frame (t :: b) = some (frameBytes t b)
    ∧ feedBytes (frameBytes t b) [] = ([(t, b)], [])
    ∧ (∀ k, k < (frameBytes t b).length →
        feedBytes ((frameBytes t b).take k) [] = ([], (frameBytes t b).take k))
    ∧ frame [] = some [0xAA, 0, 0]
    ∧ feedBytes ([0xAA, 0, 0] ++ frameBytes t b) [] = ([(t, b)], []) := by
  have h := feedBytes_frame t b hlen
  exact ⟨frame_cons_eq t b hlen, h.1, h.2.1, rfl, h.2.2⟩

/-- C1 witness: a concrete frame whose body contains the marker byte 0xAA. -/
theorem frame_stream_roundtrip_witness :
    feedBytes (frameBytes 0x0C [1, 2, 0xAA]) [] = ([(0x0C, [1, 2, 0xAA])], [])
    ∧ feedBytes ((frameBytes 0x0C [1, 2, 0xAA]).take 5) [] =
        ([], (frameBytes 0x0C [1, 2, 0xAA]).take 5)
    ∧ feedBytes ([0xAA, 0, 0] ++ frameBytes 0x0C [1, 2, 0xAA]) [] =
        ([(0x0C, [1, 2, 0xAA])], []) := by
  have h := frame_stream_roundtrip 0x0C [1, 2, 0xAA] (by decide) (by decide) (by decide)
  exact ⟨h.2.1, h.2.2.1 5 (by decide), h.2.2.2.2⟩

/-- C8: frame encoding fails exactly when the payload exceeds 2047 bytes;
otherwise the output is the 0xAA marker, a big-endian 16-bit length equal to
the payload length, then the payload, whose first byte is the command byte
followed by the body (`build_scancode_frame` passes `[CMD] + scancodes`). -/
theorem frame_encode_spec (cmd : Nat) (body : List Nat) :
    (frame (cmd :: body) = none ↔ 2047 < body.length + 1)
    ∧ (body.length + 1 ≤ 2047 →
        frame (cmd :: body) =
          some (0xAA :: (((body.length + 1) >>> 8) &&& 0xFF) ::
            ((body.length + 1) &&& 0xFF) :: cmd :: body)
        ∧ (((body.length + 1) >>> 8) &&& 0xFF) * 256 +
            ((body.length + 1) &&& 0xFF) = body.length + 1)
    ∧ build_scancode_frame body = frame (CMD_PS2_SCANCODE :: body) := by
  refine ⟨?_, ?_, rfl⟩
  · simp only [frame, List.length_cons]
    split_ifs with hgt
    · simpa using hgt
    · simp only [gt_iff_lt, not_lt] at hgt
      constructor
      · intro hcon
        exact absurd hcon (by simp)
      · intro hcon
        omega
  · intro hle
    refine ⟨?_, lenbytes_sum (body.length + 1) (by omega)⟩
    rw [frame_cons_eq cmd body hle]
    rfl

/-- C8 witness: a concrete one-byte scancode payload. -/
theorem frame_encode_spec_witness :
    frame [0x0C, 0x1C] = some [0xAA, 0, 2, 0x0C, 0x1C] := by
  have h := (frame_encode_spec 0x0C [0x1C]).2.1 (by norm_num)
  rw [h.1]
  rfl

set_option maxHeartbeats 1000000 in
/-- C6: the mouse packet is exactly 3 bytes; dy is sign-inverted before
clamping, both axes are clamped to [-128, 127], the status byte is the sum of
the sync bit 3, button bits 0/1/2, sign bits 4/5 of the clamped values and
overflow bits 6/7 set exactly when the incoming value lies outside
[-128, 127], while the clamped value is still transmitted (mod 256); and the
specified example holds. -/
theorem mouse_packet_spec (dx dy : Int) (buttons : Nat) :
    ps2_mouse_packet dx dy buttons =
      [8 + (if buttons &&& 0x1 ≠ 0 then 1 else 0) +
          (if buttons &&& 0x2 ≠ 0 then 2 else 0) +
          (if buttons &&& 0x4 ≠ 0 then 4 else 0) +
          (if clamp8 dx < 0 then 16 else 0) +
          (if clamp8 (-dy) < 0 then 32 else 0) +
          (if dx < -128 ∨ 127 < dx then 64 else 0) +
          (if dy < -128 ∨ 127 < dy then 128 else 0),
        (clamp8 dx % 256).toNat, (clamp8 (-dy) % 256).toNat]
    ∧ -128 ≤ clamp8 dx ∧ clamp8 dx ≤ 127
    ∧ -128 ≤ clamp8 (-dy) ∧ clamp8 (-dy) ≤ 127
    ∧ ps2_mouse_packet 10 (-5) 0b001 = [0x09, 0x0A, 0x05] := by
  refine ⟨?_, le_max_left _ _, max_le (by norm_num) (min_le_left _ _),
    le_max_left _ _, max_le (by norm_num) (min_le_left _ _), by
      norm_num [ps2_mouse_packet, clamp8]
      decide⟩
  simp only [ps2_mouse_packet]
  split_ifs <;> rfl

/-- C6 witness: the specified example input. -/
theorem mouse_packet_spec_witness :
    ps2_mouse_packet 10 (-5) 0b001 = [0x09, 0x0A, 0x05] := by
  exact (mouse_packet_spec 10 (-5) 0b001).2.2.2.2.2

theorem deriveBreakGo_cons (acc : List Nat) (x : Nat) (rest : List Nat) :
    deriveBreakGo acc (x :: rest) =
      (if x = 0xE0 then
        match rest with
        | [] => acc ++ [0xE0]
        | y :: rest2 => deriveBreakGo (acc ++ [0xE0, 0xF0, y]) rest2
      else if x = 0xE1 then []
      else deriveBreakGo (acc ++ [0xF0, x]) rest) := by
  rw [deriveBreakGo.eq_def]

theorem deriveBreakGo_no_escape (make : List Nat) :
    0xE0 ∉ make → 0xE1 ∉ make →
      ∀ acc, deriveBreakGo acc make = acc ++ interleaveF0 make := by
  induction make with
  | nil => intro _ _ acc; simp [deriveBreakGo, interleaveF0]
  | cons x rest ih =>
    intro h0 h1 acc
    rw [List.mem_cons] at h0 h1
    push_neg at h0 h1
    have hx0 : x ≠ 0xE0 := fun hc => h0.1 hc.symm
    have hx1 : x ≠ 0xE1 := fun hc => h1.1 hc.symm
    rw [deriveBreakGo_cons, if_neg hx0, if_neg hx1, ih h0.2 h1.2 (acc ++ [0xF0, x])]
    simp [interleaveF0]

/-- C7 (amended): for make sequences containing neither the 0xE0 extended
prefix byte nor the 0xE1 escape byte, the derived break interleaves 0xF0
before every make byte; an 0xE0-prefixed make such as the up arrow derives
to 0xE0 followed by 0xF0 and the following byte; a leading 0xE1 yields the
empty break sequence. -/
theorem derive_break_spec :
    (∀ make, 0xE0 ∉ make → 0xE1 ∉ make → derive_break make = interleaveF0 make)
    ∧ derive_break [0x1C] = [0xF0, 0x1C]
    ∧ derive_break [0xE0, 0x75] = [0xE0, 0xF0, 0x75]
    ∧ ∀ rest, derive_break (0xE1 :: rest) = [] := by
  refine ⟨?_, by decide, by decide, ?_⟩
  · intro make h0 h1
    have h := deriveBreakGo_no_escape make h0 h1 []
    simpa [derive_break] using h
  · intro rest
    rw [derive_break, deriveBreakGo_cons]
    simp

/-- C7 witness: a two-byte plain make sequence. -/
theorem derive_break_spec_witness :
    derive_break [0x15, 0x2D] = interleaveF0 [0x15, 0x2D]
    ∧ interleaveF0 [0x15, 0x2D] = [0xF0, 0x15, 0xF0, 0x2D] := by
  exact ⟨derive_break_spec.1 [0x15, 0x2D] (by decide) (by decide), by decide⟩

/-- C7 counterexample: `[0xE1]` contains no 0xE0 byte, yet its derived break
is empty and not the 0xF0 interleaving, refuting the claim as stated. -/
theorem derive_break_cex :
    (0xE0 ∉ ([0xE1] : List Nat)) ∧ derive_break [0xE1] ≠ interleaveF0 [0xE1] := by
  decide

theorem expand_keys_eq (names : List String) (pressed : Bool) :
    expand_keys_to_scancodes names pressed =
      (if names.all (fun m => (keymapLookup (asciiLower m)).isSome)
       then some ((names.map (keyChunk pressed)).flatten) else none) := by
  induction names with
  | nil => simp [expand_keys_to_scancodes]
  | cons n rest ih =>
    simp only [expand_keys_to_scancodes]
    cases hk : keymapLookup (asciiLower n) with
    | none => simp [hk]
    | some mb =>
      obtain ⟨make, brkOpt⟩ := mb
      rw [ih]
      by_cases hall : rest.all (fun m => (keymapLookup (asciiLower m)).isSome)
      · cases brkOpt with
        | none => cases pressed <;> simp [hall, hk, keyChunk]
        | some brk => cases pressed <;> simp [hall, hk, keyChunk]
      · simp [hall, hk]

/-- C9: keyboard encoding fails (aborting the whole batch with no bytes)
exactly when some name, lower-cased, is missing from the table; otherwise it
returns the concatenation, in input order, of the make sequence of each key name
when pressed, else its explicit break sequence when the table has one, else
the derived break sequence; in particular Pause on release contributes its
explicit empty break, so no bytes. -/
theorem expand_keys_spec (names : List String) (pressed : Bool) :
    (expand_keys_to_scancodes names pressed = none ↔
      ∃ n ∈ names, keymapLookup (asciiLower n) = none)
    ∧ ((∀ n ∈ names, (keymapLookup (asciiLower n)).isSome) →
        expand_keys_to_scancodes names pressed =
          some ((names.map (keyChunk pressed)).flatten))
    ∧ expand_keys_to_scancodes ["pause"] false = some []
    ∧ keyChunk false ("pause") = [] := by
  refine ⟨?_, ?_, by decide, by decide⟩
  · rw [expand_keys_eq]
    by_cases hall : names.all (fun m => (keymapLookup (asciiLower m)).isSome)
    · simp only [hall, if_true]
      rw [List.all_eq_true] at hall
      simp only [Option.isSome_iff_ne_none] at hall
      constructor
      · intro hc
        exact absurd hc (by simp)
      · intro hc
        obtain ⟨n, hn, hnone⟩ := hc
        exact absurd hnone (by simpa using hall n hn)
    · simp only [hall, if_false]
      rw [List.all_eq_true] at hall
      push_neg at hall
      obtain ⟨n, hn, hns⟩ := hall
      simp at hns
      constructor
      · intro _
        exact ⟨n, hn, by simpa using hns⟩
      · intro _
        rfl
  · intro hsome
    rw [expand_keys_eq]
    rw [if_pos ?hc]
    case hc =>
      rw [List.all_eq_true]
      intro m hm
      simpa using hsome m hm

/-- C9 witness: a mixed-case known batch and the Pause release case. -/
theorem expand_keys_spec_witness :
    expand_keys_to_scancodes ["A", "up"] true = some [0x1C, 0xE0, 0x75]
    ∧ expand_keys_to_scancodes ["pause"] false = some []
    ∧ expand_keys_to_scancodes ["a", "zzz"] true = none := by
  refine ⟨?_, (expand_keys_spec [] true).2.2.1, ?_⟩
  · have h := (expand_keys_spec ["A", "up"] true).2.1 (by decide)
    rw [h]
    decide
  · have h := (expand_keys_spec ["a", "zzz"] true).1
    rw [h.2 ⟨"zzz", by decide, by decide⟩]

theorem mouseStep_f3 (i : Nat) (r : List Nat) (st : Bool) (b : Nat) :
    mouseStep ⟨i, r, some MouseAwait.f3, st⟩ b =
      (⟨if rollRate r b = [200, 100, 80] then 0x03 else i, rollRate r b, none, st⟩,
        [0xFA]) := by
  simp [mouseStep, rollRate]

theorem mouseStep_f3cmd (i : Nat) (r : List Nat) (st : Bool) :
    mouseStep ⟨i, r, none, st⟩ 0xF3 = (⟨i, r, some MouseAwait.f3, st⟩, [0xFA]) := by
  have hand : (0xF3 : Nat) &&& 0xFF = 0xF3 := rfl
  simp [mouseStep, hand]

theorem runMouse_samplePairs (vs : List Nat) :
    ∀ (i : Nat) (r : List Nat) (st : Bool),
      runMouse ⟨i, r, none, st⟩ (sampleRatePairs vs) =
        (⟨if rateHit r vs then 0x03 else i, rollRates r vs, none, st⟩,
          List.replicate (2 * vs.length) 0xFA) := by
  induction vs with
  | nil =>
    intro i r st
    simp [runMouse, sampleRatePairs, rateHit, rollRates]
  | cons v rest ih =>
    intro i r st
    show runMouse ⟨i, r, none, st⟩ (0xF3 :: v :: sampleRatePairs rest) = _
    simp only [runMouse, mouseStep_f3cmd, mouseStep_f3,
      ih (if rollRate r v = [200, 100, 80] then 0x03 else i) (rollRate r v) st]
    have hrep : 2 * (v :: rest).length = 2 + 2 * rest.length := by
      simp
      omega
    rw [hrep, List.replicate_add]
    by_cases h1 : rollRate r v = [200, 100, 80] <;>
      by_cases h2 : rateHit (rollRate r v) rest <;>
        simp [rateHit, rollRates, h1, h2]

/-- C5 (amended): from the reset state the command bytes
0xF3,200,0xF3,100,0xF3,80 leave deviceId = 0x03; every sample-rate data byte
is ACKed and appended to the rolling last-3 history, with deviceId set to
0x03 exactly when the updated history equals [200, 100, 80]; and over any
pure sample-rate command stream the final deviceId is 0x03 exactly when the
rolling history hits [200, 100, 80] at some point -- an interleaving that
breaks the exact value tail (for example rates 200, 110, 80) leaves 0x00,
but an intervening command that neither resets nor sets a sample rate does
not clear the history. -/
theorem mouse_intellimouse_spec (vs : List Nat) :
    (runMouse initMouse [0xF3, 200, 0xF3, 100, 0xF3, 80]).1.ps2_id = 0x03
    ∧ (∀ (i : Nat) (r : List Nat) (st : Bool) (b : Nat),
        mouseStep ⟨i, r, some MouseAwait.f3, st⟩ b =
          (⟨if rollRate r b = [200, 100, 80] then 0x03 else i, rollRate r b,
             none, st⟩, [0xFA]))
    ∧ (runMouse initMouse (sampleRatePairs vs)).2 =
        List.replicate (2 * vs.length) 0xFA
    ∧ ((runMouse initMouse (sampleRatePairs vs)).1.ps2_id = 0x03 ↔
        rateHit [] vs = true) := by
  refine ⟨by decide, mouseStep_f3, ?_, ?_⟩
  · rw [show initMouse = (⟨0, [], none, false⟩ : MouseState) from rfl,
      runMouse_samplePairs vs 0 [] false]
  · rw [show initMouse = (⟨0, [], none, false⟩ : MouseState) from rfl,
      runMouse_samplePairs vs 0 [] false]
    by_cases h : rateHit [] vs <;> simp [h]

/-- C5 witness: the magic sequence, one concrete sample-rate step completing
the history, and a broken-tail stream. -/
theorem mouse_intellimouse_spec_witness :
    (runMouse initMouse [0xF3, 200, 0xF3, 100, 0xF3, 80]).1.ps2_id = 0x03
    ∧ mouseStep ⟨0, [200, 100], some MouseAwait.f3, false⟩ 80 =
        (⟨0x03, [200, 100, 80], none, false⟩, [0xFA])
    ∧ (runMouse initMouse (sampleRatePairs [200, 110, 80])).1.ps2_id = 0 := by
  have h := mouse_intellimouse_spec [200, 110, 80]
  refine ⟨h.1, ?_, ?_⟩
  · have h2 := h.2.1 0 [200, 100] false 80
    rw [h2]
    decide
  · have h3 := h.2.2.2
    have hno : rateHit [] [200, 110, 80] = false := by decide
    rw [hno] at h3
    simp only [Bool.false_eq_true, iff_false] at h3
    decide

/-- C5 counterexample: interleaving a non-0xF3 command (0xE9, Status) between
the sample-rate settings still yields deviceId = 0x03, where the claim says
any intervening non-0xF3 command must leave 0x00. -/
theorem mouse_intellimouse_cex :
    (runMouse initMouse [0xF3, 200, 0xF3, 100, 0xE9, 0xF3, 80]).1.ps2_id = 0x03
    ∧ (runMouse initMouse [0xF3, 200, 0xF3, 100, 0xE9, 0xF3, 80]).1.ps2_id ≠ 0x00 := by
  decide

theorem geomGe_refl (a : Nat × Nat) : geomGe a a = true := by
  simp [geomGe]

theorem geomGe_total (a c : Nat × Nat) (h : ¬ geomGe a c = true) : geomGe c a = true := by
  simp [geomGe] at h ⊢
  omega

theorem geomGe_trans {a c d : Nat × Nat} (h1 : geomGe a c = true)
    (h2 : geomGe c d = true) : geomGe a d = true := by
  simp [geomGe] at h1 h2 ⊢
  omega

theorem mem_insertGeom {x c : Nat × Nat} {l : List (Nat × Nat)} :
    x ∈ insertGeom c l ↔ x = c ∨ x ∈ l := by
  induction l with
  | nil => simp [insertGeom]
  | cons d rest ih =>
    simp only [insertGeom]
    split_ifs with hge
    · simp [List.mem_cons]
    · simp only [List.mem_cons, ih]
      tauto

theorem mem_sortGeomDesc {x : Nat × Nat} {l : List (Nat × Nat)} :
    x ∈ sortGeomDesc l ↔ x ∈ l := by
  induction l with
  | nil => simp [sortGeomDesc]
  | cons c rest ih => simp [sortGeomDesc, mem_insertGeom, ih]

theorem insertGeom_ne_nil (c : Nat × Nat) (l : List (Nat × Nat)) :
    insertGeom c l ≠ [] := by
  cases l with
  | nil => simp [insertGeom]
  | cons d rest =>
    simp only [insertGeom]
    split_ifs <;> simp

theorem sortGeomDesc_eq_nil {l : List (Nat × Nat)} (h : sortGeomDesc l = []) :
    l = [] := by
  cases l with
  | nil => rfl
  | cons c rest =>
    simp only [sortGeomDesc] at h
    exact absurd h (insertGeom_ne_nil _ _)

theorem sortGeomDesc_head_ge :
    ∀ (l : List (Nat × Nat)) (x : Nat × Nat) (rest : List (Nat × Nat)),
      sortGeomDesc l = x :: rest → ∀ y ∈ l, geomGe x y = true := by
  intro l
  induction l with
  | nil => intro x rest h; simp [sortGeomDesc] at h
  | cons c lt ih =>
    intro x rest h y hy
    simp only [sortGeomDesc] at h
    cases hs : sortGeomDesc lt with
    | nil =>
      have hlt : lt = [] := sortGeomDesc_eq_nil hs
      subst hlt
      rw [hs] at h
      simp only [insertGeom] at h
      injection h with hxc hrest
      subst hxc
      rcases List.mem_cons.mp hy with hyc | hylt
      · subst hyc; exact geomGe_refl _
      · simp at hylt
    | cons m ms =>
      rw [hs] at h
      have hm := ih m ms hs
      simp only [insertGeom] at h
      split_ifs at h with hcm
      · injection h with hxc hrest
        subst hxc
        rcases List.mem_cons.mp hy with hyc | hylt
        · subst hyc; exact geomGe_refl _
        · exact geomGe_trans hcm (hm y hylt)
      · injection h with hxm hrest
        subst hxm
        rcases List.mem_cons.mp hy with hyc | hylt
        · subst hyc; exact geomGe_total _ _ hcm
        · exact hm y hylt

set_option maxRecDepth 4000 in
/-- C2: a candidate (heads, spt) is accepted exactly when every one of the
four partition-table entries checks out (type-0 entries skipped, decodable
CHS start and end fields converted by `((cyl*heads)+head)*spt + (sec-1)` must
match the stored LBA bounds, all-0xFF triples and zero sector fields
skipped); the result is an accepted candidate dominating all accepted ones
under the descending (spt, heads) order, (255, 63) when none is accepted,
cylinders are `total/512/heads/spt` by integer division; and the synthetic
single-partition MBR of the spec selects heads=255, spt=63. -/
theorem calc_geometry_spec (mbr : List Nat) (total : Nat) (hlen : mbr.length = 512) :
    (geomCandidates.filter (checkCandidate mbr) = [] →
      calc_geometry_from_mbr mbr total = (total / 512 / 255 / 63, 255, 63))
    ∧ (geomCandidates.filter (checkCandidate mbr) ≠ [] →
        ((calc_geometry_from_mbr mbr total).2.1,
          (calc_geometry_from_mbr mbr total).2.2) ∈
          geomCandidates.filter (checkCandidate mbr))
    ∧ (∀ c ∈ geomCandidates.filter (checkCandidate mbr),
        geomGe ((calc_geometry_from_mbr mbr total).2.1,
          (calc_geometry_from_mbr mbr total).2.2) c = true)
    ∧ (calc_geometry_from_mbr mbr total).1 =
        total / 512 / (calc_geometry_from_mbr mbr total).2.1 /
          (calc_geometry_from_mbr mbr total).2.2
    ∧ (∀ hd sp, checkCandidate mbr (hd, sp) = true ↔
        ∀ i < 4, entryOk hd sp (mbrEntry mbr i) = true)
    ∧ calc_geometry_from_mbr exampleMBR 512000000 = (62, 255, 63) := by
  have hiff : ∀ hd sp, checkCandidate mbr (hd, sp) = true ↔
      ∀ i < 4, entryOk hd sp (mbrEntry mbr i) = true := by
    intro hd sp
    simp only [checkCandidate, List.all_eq_true, List.mem_map, List.mem_range]
    constructor
    · intro h i hi
      exact h (mbrEntry mbr i) ⟨i, hi, rfl⟩
    · rintro h e ⟨i, hi, rfl⟩
      exact h i hi
  cases hs : sortGeomDesc (geomCandidates.filter (checkCandidate mbr)) with
  | nil =>
    have hemp := sortGeomDesc_eq_nil hs
    have hres : calc_geometry_from_mbr mbr total = (total / 512 / 255 / 63, 255, 63) := by
      simp only [calc_geometry_from_mbr, SECTOR_SIZE, hs]
      rfl
    refine ⟨fun _ => hres, fun hne => absurd hemp hne, ?_, ?_, hiff, by decide⟩
    · intro c hc
      rw [hemp] at hc
      simp at hc
    · rw [hres]
  | cons c cs =>
    have hres : calc_geometry_from_mbr mbr total =
        (total / 512 / c.1 / c.2, c.1, c.2) := by
      simp only [calc_geometry_from_mbr, SECTOR_SIZE, hs]
      rfl
    have hcmem : c ∈ geomCandidates.filter (checkCandidate mbr) := by
      rw [← mem_sortGeomDesc, hs]
      exact List.mem_cons_self _ _
    refine ⟨?_, fun _ => ?_, ?_, ?_, hiff, by decide⟩
    · intro hemp
      rw [hemp] at hs
      simp [sortGeomDesc] at hs
    · rw [hres]
      exact hcmem
    · intro d hd
      rw [hres]
      exact sortGeomDesc_head_ge _ c cs hs d hd
    · rw [hres]

set_option maxRecDepth 4000 in
/-- C2 witness: the synthetic MBR, whose length hypothesis is discharged
concretely. -/
theorem calc_geometry_spec_witness :
    calc_geometry_from_mbr exampleMBR 512000000 = (62, 255, 63)
    ∧ checkCandidate exampleMBR (255, 63) = true := by
  have h := calc_geometry_spec exampleMBR 512000000 (by decide)
  exact ⟨h.2.2.2.2.2, by decide⟩

theorem serializePairs_length_aux (pairs : List (Nat × Nat)) :
    ∀ acc : List Nat,
      (pairs.foldl
        (fun a p => a ++ le4 (p.1 &&& 0xFFFFFFFF) ++ le4 (p.2 &&& 0xFFFFFFFF))
        acc).length = acc.length + 8 * pairs.length := by
  induction pairs with
  | nil => intro acc; simp
  | cons p rest ih =>
    intro acc
    simp only [List.foldl_cons]
    rw [ih]
    simp [le4]
    omega

theorem serializePairs_length (pairs : List (Nat × Nat)) :
    (serializePairs pairs).length = 8 * pairs.length := by
  simpa [serializePairs] using serializePairs_length_aux pairs []

theorem configPairs_length (mem_kb : Nat) (hdd : List Nat) :
    (configPairs mem_kb hdd).length = 142 := by
  simp only [configPairs, List.length_append, List.length_cons, List.length_nil,
    List.length_map, List.length_range]

theorem config_stream_closed (mem_kb : Nat) (hdd : List Nat) :
    build_config_stream mem_kb hdd =
      serializePairs (configPairs mem_kb hdd) ++ le4 0 ++ List.replicate 396 0 := by
  have hlen : (serializePairs (configPairs mem_kb hdd) ++ le4 0).length = 1140 := by
    simp [serializePairs_length, configPairs_length, le4]
  simp only [build_config_stream, SECTOR_SIZE]
  rw [hlen]
  norm_num

theorem config_stream_length (mem_kb : Nat) (hdd : List Nat) :
    (build_config_stream mem_kb hdd).length = 1536 := by
  rw [config_stream_closed]
  simp only [List.length_append, serializePairs_length, configPairs_length, le4,
    List.length_cons, List.length_nil, List.length_replicate]

theorem create_layout (bios vga hdd : List Nat) (mem_mb : Nat)
    (hb : bios.length ≤ 0x10000) (hv : vga.length ≤ 0x8000) :
    create_sdcard_image bios vga hdd mem_mb =
      some ((bios ++ List.replicate (0x10000 - bios.length) 0 ++ vga ++
          List.replicate (0x8000 - vga.length) 0) ++
        build_config_stream ((mem_mb - 1) * 1024) hdd ++
        (List.replicate 31232 0 ++ hdd)) := by
  have hV : VGA_BIOS_OFFSET = 0x10000 := by norm_num [VGA_BIOS_OFFSET]
  have hC : CFG_OFFSET = 0x18000 := by norm_num [CFG_OFFSET, CFG_SECTOR, SECTOR_SIZE]
  have hH : HDD_OFFSET = 0x20000 := by norm_num [HDD_OFFSET]
  simp only [create_sdcard_image, hV, hC, hH]
  rw [if_neg (by omega)]
  rw [if_neg (by omega)]
  have hp1 : (if bios.length < 0x10000 then
      bios ++ List.replicate (0x10000 - bios.length) 0 else bios) =
      bios ++ List.replicate (0x10000 - bios.length) 0 := by
    by_cases h : bios.length < 0x10000
    · rw [if_pos h]
    · rw [if_neg h]
      have : 0x10000 - bios.length = 0 := by omega
      rw [this]
      simp
  rw [hp1]
  have hlen1 : (bios ++ List.replicate (0x10000 - bios.length) 0 ++ vga).length =
      0x10000 + vga.length := by
    simp
    omega
  have hp2 : (if (bios ++ List.replicate (0x10000 - bios.length) 0 ++ vga).length <
        0x18000 then
      bios ++ List.replicate (0x10000 - bios.length) 0 ++ vga ++
        List.replicate (0x18000 -
          (bios ++ List.replicate (0x10000 - bios.length) 0 ++ vga).length) 0
      else bios ++ List.replicate (0x10000 - bios.length) 0 ++ vga) =
      bios ++ List.replicate (0x10000 - bios.length) 0 ++ vga ++
        List.replicate (0x8000 - vga.length) 0 := by
    rw [hlen1]
    by_cases h : 0x10000 + vga.length < 0x18000
    · rw [if_pos h]
      have : 0x18000 - (0x10000 + vga.length) = 0x8000 - vga.length := by omega
      rw [this]
    · rw [if_neg h]
      have : 0x8000 - vga.length = 0 := by omega
      rw [this]
      simp
  rw [hp2]
  have hlen2 : (bios ++ List.replicate (0x10000 - bios.length) 0 ++ vga ++
      List.replicate (0x8000 - vga.length) 0 ++
      build_config_stream ((mem_mb - 1) * 1024) hdd).length = 0x18600 := by
    simp [config_stream_length]
    omega
  rw [if_pos (by rw [hlen2]; norm_num)]
  rw [hlen2]
  norm_num

/-- C4 (amended): the pair stream consists, in this order, of the CMOS
extended-memory bytes (0xF430 low, 0xF431 high), the equipment byte 0xF414
(value 0x25: diskette, PS/2 mouse, 80x25 color), the floppy type byte 0xF410
(0x20), the battery-status byte 0xF40D (0x80), the date bytes 0xF409 (year),
0xF408 (month), 0xF407 (day), 0xF432 (century), the five geometry registers
0xF001..0xF005 (cylinders, heads, spt, spt*heads, spt*heads*cylinders), then
exactly 128 pairs at address 0xF000 packing the 256 IDENTIFY words as
`ident[2i] | ident[2i+1] << 16`; no other addresses occur.  The serialized
stream is the little-endian pairs followed by a 32-bit zero terminator and
zero padding to 1536 bytes, a multiple of 512. -/
theorem config_stream_spec (mem_kb : Nat) (hdd : List Nat) :
    (configPairs mem_kb hdd).take 14 =
      [ (0xF430, mem_kb &&& 0xFF), (0xF431, (mem_kb >>> 8) &&& 0xFF),
        (0xF414, 0x25), (0xF410, 0x20), (0xF40D, 0x80),
        (0xF409, 0x24), (0xF408, 0x01), (0xF407, 0x01), (0xF432, 0x20),
        (0xF001, (calc_geometry_from_mbr (hdd.take 512) hdd.length).1),
        (0xF002, (calc_geometry_from_mbr (hdd.take 512) hdd.length).2.1),
        (0xF003, (calc_geometry_from_mbr (hdd.take 512) hdd.length).2.2),
        (0xF004, (calc_geometry_from_mbr (hdd.take 512) hdd.length).2.2 *
          (calc_geometry_from_mbr (hdd.take 512) hdd.length).2.1),
        (0xF005, (calc_geometry_from_mbr (hdd.take 512) hdd.length).2.2 *
          (calc_geometry_from_mbr (hdd.take 512) hdd.length).2.1 *
          (calc_geometry_from_mbr (hdd.take 512) hdd.length).1) ]
    ∧ (configPairs mem_kb hdd).drop 14 =
        (List.range 128).map (fun i =>
          (0xF000,
            (((build_identify_words
                (calc_geometry_from_mbr (hdd.take 512) hdd.length).1
                (calc_geometry_from_mbr (hdd.take 512) hdd.length).2.1
                (calc_geometry_from_mbr (hdd.take 512) hdd.length).2.2).getD
                  (2 * i + 1) 0 &&& 0xFFFF) <<< 16) |||
              ((build_identify_words
                (calc_geometry_from_mbr (hdd.take 512) hdd.length).1
                (calc_geometry_from_mbr (hdd.take 512) hdd.length).2.1
                (calc_geometry_from_mbr (hdd.take 512) hdd.length).2.2).getD
                  (2 * i) 0 &&& 0xFFFF)))
    ∧ (configPairs mem_kb hdd).map Prod.fst =
        [0xF430, 0xF431, 0xF414, 0xF410, 0xF40D, 0xF409, 0xF408, 0xF407,
         0xF432, 0xF001, 0xF002, 0xF003, 0xF004, 0xF005] ++
          List.replicate 128 0xF000
    ∧ build_config_stream mem_kb hdd =
        serializePairs (configPairs mem_kb hdd) ++ le4 0 ++ List.replicate 396 0
    ∧ (build_config_stream mem_kb hdd).length = 1536
    ∧ (1536 : Nat) % 512 = 0 := by
  refine ⟨?_, ?_, ?_, config_stream_closed mem_kb hdd,
    config_stream_length mem_kb hdd, by norm_num⟩
  · simp [configPairs, SECTOR_SIZE]
  · simp [configPairs, SECTOR_SIZE]
  · simp only [configPairs, SECTOR_SIZE, List.map_append, List.map_map]
    norm_num
    simp [Function.comp_def]

/-- C4 counterexample: the fifth pair written is at address 0xF40D, which is
in none of the address groups listed by the claim, so the claimed order and
the claimed "no other addresses" are both refuted. -/
theorem config_stream_cex :
    ((configPairs 1024 (List.replicate 512 0)).map Prod.fst).getD 4 0 = 0xF40D
    ∧ (0xF40D : Nat) ∉
        [0xF430, 0xF431, 0xF414, 0xF408, 0xF409, 0xF407, 0xF432, 0xF410,
         0xF001, 0xF002, 0xF003, 0xF004, 0xF005, 0xF000] := by
  constructor
  · rfl
  · decide

/-- C10: the value written as the CMOS extended-memory pair bytes is
`(mem_mb - 1) * 1024` KB, low byte at 0xF430 and high byte at 0xF431, and the
image composer builds its config stream from exactly that value. -/
theorem extended_memory_spec (mem_mb : Nat) (hdd : List Nat)
    (h1 : 1 ≤ mem_mb) (h64 : mem_mb ≤ 64) :
    (configPairs ((mem_mb - 1) * 1024) hdd).take 2 =
      [(0xF430, ((mem_mb - 1) * 1024) &&& 0xFF),
       (0xF431, (((mem_mb - 1) * 1024) >>> 8) &&& 0xFF)]
    ∧ (((mem_mb - 1) * 1024) &&& 0xFF) +
        256 * ((((mem_mb - 1) * 1024) >>> 8) &&& 0xFF) = (mem_mb - 1) * 1024
    ∧ create_sdcard_image [] [] hdd mem_mb =
        some ((([] : List Nat) ++ List.replicate 0x10000 0 ++ [] ++
          List.replicate 0x8000 0) ++
          build_config_stream ((mem_mb - 1) * 1024) hdd ++
          (List.replicate 31232 0 ++ hdd)) := by
  have hkb : (mem_mb - 1) * 1024 < 65536 := by omega
  refine ⟨by simp [configPairs], ?_, ?_⟩
  · rw [and_255_eq_mod, and_255_eq_mod, shr8_eq_div]
    have hdiv : (mem_mb - 1) * 1024 / 256 % 256 = (mem_mb - 1) * 1024 / 256 :=
      Nat.mod_eq_of_lt (by omega)
    rw [hdiv]
    have := Nat.div_add_mod ((mem_mb - 1) * 1024) 256
    omega
  · have h := create_layout [] [] hdd mem_mb (by simp) (by simp)
    rw [h]
    norm_num

/-- C3 (amended): composition fails exactly when the BIOS exceeds 64 KiB or
the VGA BIOS would overlap the 128 KiB boundary; when additionally the VGA
BIOS fits below the config offset (length ≤ 0x8000) the output is the BIOS,
zero padding to 0x10000, the VGA BIOS, zero padding to 0x18000, the config
stream, zero padding to 0x20000, then the full disk image, with total length
exactly 0x20000 + len(disk image).  For VGA BIOS sizes in (0x8000, 0x10000]
the oversize checks still pass but the config stream and disk image are
written at shifted offsets (see the counterexample). -/
theorem create_sdcard_spec (bios vga hdd : List Nat) (mem_mb : Nat) :
    (create_sdcard_image bios vga hdd mem_mb = none ↔
      0x10000 < bios.length ∨ 0x20000 < 0x10000 + vga.length)
    ∧ (bios.length ≤ 0x10000 → vga.length ≤ 0x8000 →
        create_sdcard_image bios vga hdd mem_mb =
          some ((bios ++ List.replicate (0x10000 - bios.length) 0 ++ vga ++
              List.replicate (0x8000 - vga.length) 0) ++
            build_config_stream ((mem_mb - 1) * 1024) hdd ++
            (List.replicate 31232 0 ++ hdd))
        ∧ (∀ out, create_sdcard_image bios vga hdd mem_mb = some out →
            out.length = 0x20000 + hdd.length)) := by
  have hV : VGA_BIOS_OFFSET = 0x10000 := by norm_num [VGA_BIOS_OFFSET]
  have hH : HDD_OFFSET = 0x20000 := by norm_num [HDD_OFFSET]
  constructor
  · simp only [create_sdcard_image, hV, hH]
    by_cases h1 : 0x10000 < bios.length
    · rw [if_pos (by omega)]
      simp [h1]
    · rw [if_neg (by omega)]
      by_cases h2 : 0x20000 < 0x10000 + vga.length
      · rw [if_pos (by omega)]
        simp [h2]
      · rw [if_neg (by omega)]
        constructor
        · intro hc
          exact absurd hc (by simp)
        · intro hc
          omega
  · intro hb hv
    have h := create_layout bios vga hdd mem_mb hb hv
    refine ⟨h, ?_⟩
    intro out hout
    rw [h] at hout
    injection hout with hout2
    rw [← hout2]
    simp only [List.length_append, List.length_replicate, config_stream_length]
    omega

set_option maxRecDepth 2000 in
/-- C3 witness: the specified 100-byte BIOS, 50-byte VGA BIOS, 1000-byte disk
image example: total size 0x20000 + 1000 with the BIOS bytes at [0, 100) and
the VGA BIOS bytes at [0x10000, 0x10032). -/
theorem create_sdcard_spec_witness :
    ((create_sdcard_image (List.replicate 100 1) (List.replicate 50 2)
        (List.replicate 1000 3) 2).getD []).length = 0x20000 + 1000
    ∧ ((create_sdcard_image (List.replicate 100 1) (List.replicate 50 2)
        (List.replicate 1000 3) 2).getD []).take 100 = List.replicate 100 1
    ∧ (((create_sdcard_image (List.replicate 100 1) (List.replicate 50 2)
        (List.replicate 1000 3) 2).getD []).drop 0x10000).take 50 =
          List.replicate 50 2 := by
  have h := (create_sdcard_spec (List.replicate 100 1) (List.replicate 50 2)
    (List.replicate 1000 3) 2).2 (by simp) (by simp)
  rw [h.1]
  simp only [Option.getD_some]
  refine ⟨?_, ?_, ?_⟩
  · simp only [List.length_append, List.length_replicate, config_stream_length]
  · simp only [List.append_assoc]
    rw [List.take_append_of_le_length (by simp only [List.length_replicate]; norm_num)]
    simp
  · simp only [List.append_assoc]
    rw [List.drop_append_eq_append_drop]
    rw [List.drop_of_length_le (by simp only [List.length_replicate]; norm_num)]
    simp only [List.length_replicate, List.nil_append]
    rw [List.drop_append_eq_append_drop]
    rw [List.drop_of_length_le (by simp only [List.length_replicate]; norm_num)]
    simp only [List.length_replicate, List.nil_append]
    norm_num

set_option maxRecDepth 2000 in
/-- C3 counterexample: a 64 KiB VGA BIOS passes both oversize checks (64 KiB
+ 64 KiB ≤ 128 KiB), yet the output is 0x20600 + len(disk) bytes, not the
claimed 0x20000 + len(disk): the config stream and disk image are written
beyond their claimed offsets. -/
theorem create_sdcard_cex :
    ((create_sdcard_image [] (List.replicate 0x10000 7) (List.replicate 512 0)
        2).getD []).length = 0x20600 + 512
    ∧ (0x20600 + 512 : Nat) ≠ 0x20000 + (List.replicate 512 (0 : Nat)).length := by
  have hV : VGA_BIOS_OFFSET = 0x10000 := by norm_num [VGA_BIOS_OFFSET]
  have hC : CFG_OFFSET = 0x18000 := by norm_num [CFG_OFFSET, CFG_SECTOR, SECTOR_SIZE]
  have hH : HDD_OFFSET = 0x20000 := by norm_num [HDD_OFFSET]
  constructor
  · simp only [create_sdcard_image, hV, hC, hH, List.length_nil,
      List.length_append, List.length_replicate, config_stream_length,
      List.nil_append, Nat.sub_zero]
    norm_num [config_stream_length]
  · simp

/-- C10 witness: 2 MB of memory gives 1024 KB extended, bytes 0x00/0x04. -/
theorem extended_memory_spec_witness :
    (configPairs 1024 (List.replicate 512 0)).take 2 = [(0xF430, 0), (0xF431, 4)]
    ∧ (0 : Nat) + 256 * 4 = 1024 := by
  have h := extended_memory_spec 2 (List.replicate 512 0) (by norm_num) (by norm_num)
  have h1 := h.1
  have h2 := h.2.1
  norm_num at h1 h2
  constructor
  · rw [show (1024 : Nat) = (2 - 1) * 1024 from rfl]
    rw [h.1]
    rfl
  · norm_num

end Tang
